import Mathlib

/-!
Verification of `push.py` from the wxread repository: a unified notification
dispatcher with four sender strategies (PushPlus, Telegram, WxPusher, DingTalk).

The senders are shallowly embedded as pure functions over oracles describing
the outside world: the network is a function from the attempt index to the
outcome of that HTTP attempt, and the random number generator is a stream of
naturals consumed by a faithful model of Python's `random.randint` (inclusive
on both endpoints).  Each sender returns the trace of observable events
(signature computations, HTTP attempts, sleeps) together with its result.
-/

namespace Wxread

/-- Observable events of a sender run: `sign i` is an invocation of
`generate_dingtalk_sign` on attempt `i`, `http i` an HTTP request performed on
attempt `i`, `sleep d` a call to `time.sleep(d)`. -/
inductive Ev
  | sign (i : Nat)
  | http (i : Nat)
  | sleep (d : Nat)
deriving DecidableEq, Repr

/-- Model of Python's `random.randint(lo, hi)`: both endpoints inclusive, so
the result ranges over exactly `lo, lo+1, ..., hi`; `r` is the raw randomness
consumed from the stream. -/
def randint (lo hi r : Nat) : Nat := lo + r % (hi - lo + 1)

/-- Outcome of one `requests` call in the PushPlus / WxPusher attempt body
(`requests.post`/`requests.get` followed by `raise_for_status`):
either no exception (2xx), a `requests.exceptions.RequestException`
(network error or non-2xx status), or an exception of any other type. -/
inductive ReqOutcome
  | success
  | requestError
  | otherError
deriving DecidableEq, Repr

/-- How a PushPlus / WxPusher sender call finishes: returning `None`
normally, or letting an exception propagate to the caller. -/
inductive FnExit
  | retNone
  | raised
deriving DecidableEq, Repr

/-- The local `attempts = 5` of `push_pushplus`. -/
def pushplusAttempts : Nat := 5

/-- The `for attempt in range(attempts)` loop of `push_pushplus`:
`r` is the number of loop iterations remaining, `i` the current value of
`attempt`.  A successful request breaks out of the loop; a
`RequestException` is caught and, when `attempt < attempts - 1`, followed by
`time.sleep(random.randint(180, 360))`; an exception of any other type is not
caught by the `except requests.exceptions.RequestException` clause and
propagates. -/
def pushplusGo (net : Nat → ReqOutcome) (rand : Nat → Nat) :
    Nat → Nat → List Ev × FnExit
  | 0, _ => ([], .retNone)
  | r + 1, i =>
    match net i with
    | .success => ([Ev.http i], .retNone)
    | .requestError =>
      if i < pushplusAttempts - 1 then
        let d := randint 180 360 (rand i)
        let rest := pushplusGo net rand r (i + 1)
        (Ev.http i :: Ev.sleep d :: rest.1, rest.2)
      else
        ([Ev.http i], .retNone)
    | .otherError => ([Ev.http i], .raised)

/-- Source method `PushNotification.push_pushplus`: run the 5-attempt retry loop from
attempt 0. -/
def push_pushplus (net : Nat → ReqOutcome) (rand : Nat → Nat) :
    List Ev × FnExit :=
  pushplusGo net rand pushplusAttempts 0

/-- The local `attempts = 5` of `push_wxpusher`. -/
def wxpusherAttempts : Nat := 5

/-- The retry loop of `push_wxpusher`, structurally identical to
`push_pushplus` (GET instead of POST, same 5 attempts and 180–360 s
backoff). -/
def wxpusherGo (net : Nat → ReqOutcome) (rand : Nat → Nat) :
    Nat → Nat → List Ev × FnExit
  | 0, _ => ([], .retNone)
  | r + 1, i =>
    match net i with
    | .success => ([Ev.http i], .retNone)
    | .requestError =>
      if i < wxpusherAttempts - 1 then
        let d := randint 180 360 (rand i)
        let rest := wxpusherGo net rand r (i + 1)
        (Ev.http i :: Ev.sleep d :: rest.1, rest.2)
      else
        ([Ev.http i], .retNone)
    | .otherError => ([Ev.http i], .raised)

/-- Source method `PushNotification.push_wxpusher`. -/
def push_wxpusher (net : Nat → ReqOutcome) (rand : Nat → Nat) :
    List Ev × FnExit :=
  wxpusherGo net rand wxpusherAttempts 0

/-- Source method `PushNotification.push_telegram`: one proxied attempt (`attempt 0`);
on any exception (`except Exception`), exactly one direct attempt
(`attempt 1`); returns `True` if either attempt succeeds, `False` if both
fail.  `proxied` / `direct` tell whether the respective attempt succeeds. -/
def push_telegram (proxied direct : Bool) : List Ev × Bool :=
  if proxied then ([Ev.http 0], true)
  else if direct then ([Ev.http 0, Ev.http 1], true)
  else ([Ev.http 0, Ev.http 1], false)

/-- Outcome of the HTTP part of one DingTalk attempt: `exn` is any exception
raised by `requests.post`, `raise_for_status` (non-2xx) or `response.json()`;
`ok ec` is a 2xx response whose parsed JSON body has `errcode` field `ec`
(`none` when the field is absent). -/
inductive DingNetOutcome
  | exn
  | ok (errcode : Option Int)
deriving DecidableEq, Repr

/-- The DingTalk configuration read from the `config` module:
`DINGTALK_WEBHOOK` and `DINGTALK_SECRET`, each possibly absent. -/
structure DingConfig where
  webhook : Option String
  secret : Option String

/-- Python truthiness test `not DINGTALK_WEBHOOK` on an optional string:
true when the value is `None` or the empty string. -/
def strFalsy : Option String → Bool
  | none => true
  | some s => s == ""

/-- The local `attempts = 3` of `push_dingtalk`. -/
def dingAttempts : Nat := 3

/-- The `for attempt in range(attempts)` loop of `push_dingtalk`.
Each iteration first computes a fresh timestamp and signature (`Ev.sign i`);
if the secret is `None`, `secret.encode` raises `AttributeError` before any
HTTP call, caught by the `except Exception` clause.  Otherwise the HTTP
request is made (`Ev.http i`); success (return `True`) requires no exception
AND `response.json().get("errcode") == 0`.  After any failed iteration, when
`attempt < attempts - 1`, the sender sleeps `random.randint(2, 5)` seconds.
Falling out of the loop returns `False`. -/
def dingGo (cfg : DingConfig) (net : Nat → DingNetOutcome) (rand : Nat → Nat) :
    Nat → Nat → List Ev × Bool
  | 0, _ => ([], false)
  | r + 1, i =>
    let step : List Ev × Option Bool :=
      match cfg.secret with
      | none => ([Ev.sign i], none)
      | some _ =>
        match net i with
        | .exn => ([Ev.sign i, Ev.http i], none)
        | .ok ec =>
          if ec = some 0 then ([Ev.sign i, Ev.http i], some true)
          else ([Ev.sign i, Ev.http i], none)
    match step.2 with
    | some b => (step.1, b)
    | none =>
      if i < dingAttempts - 1 then
        let d := randint 2 5 (rand i)
        let rest := dingGo cfg net rand r (i + 1)
        (step.1 ++ Ev.sleep d :: rest.1, rest.2)
      else (step.1, false)

/-- Source method `PushNotification.push_dingtalk`: returns `False` immediately (no
attempt) when the webhook is not configured, otherwise runs the 3-attempt
loop. -/
def push_dingtalk (cfg : DingConfig) (net : Nat → DingNetOutcome)
    (rand : Nat → Nat) : List Ev × Bool :=
  if strFalsy cfg.webhook then ([], false)
  else dingGo cfg net rand dingAttempts 0

/-- The world a `push` call runs in: per-channel network oracles, the
randomness stream, and the DingTalk configuration. -/
structure World where
  ppNet : Nat → ReqOutcome
  wxNet : Nat → ReqOutcome
  tgProxied : Bool
  tgDirect : Bool
  dingCfg : DingConfig
  dingNet : Nat → DingNetOutcome
  rand : Nat → Nat

/-- How a `push(content, method)` call finishes: `retNone` for the
fire-and-forget senders, `retBool b` for Telegram/DingTalk, `raised` when a
sender lets an exception propagate, `valueError` for the
`raise ValueError(...)` branch on an unknown channel. -/
inductive PushOutcome
  | retNone
  | retBool (b : Bool)
  | raised
  | valueError
deriving DecidableEq, Repr

/-- Lift a PushPlus/WxPusher exit to a `push` outcome. -/
def liftExit : FnExit → PushOutcome
  | .retNone => .retNone
  | .raised => .raised

/-- The module-level dispatcher `push(content, method)`: string dispatch over
the four known channels, `ValueError` otherwise. -/
def push (w : World) (content method : String) : List Ev × PushOutcome :=
  if method = "pushplus" then
    let res := push_pushplus w.ppNet w.rand
    (res.1, liftExit res.2)
  else if method = "telegram" then
    let res := push_telegram w.tgProxied w.tgDirect
    (res.1, PushOutcome.retBool res.2)
  else if method = "wxpusher" then
    let res := push_wxpusher w.wxNet w.rand
    (res.1, liftExit res.2)
  else if method = "dingtalk" then
    let res := push_dingtalk w.dingCfg w.dingNet w.rand
    (res.1, PushOutcome.retBool res.2)
  else ([], PushOutcome.valueError)

/-! ### The DingTalk signature helper

`generate_dingtalk_sign(timestamp, secret)` computes
`base64.b64encode(hmac.new(secret.encode("utf-8"),
f"{timestamp}\n{secret}".encode("utf-8"), hashlib.sha256).digest())`.
We embed the full byte-level pipeline: UTF-8 encoding, SHA-256, HMAC and
Base64, all over `List Nat` of byte values. -/

/-- UTF-8 encoding of a single Unicode code point (as in `str.encode`). -/
def utf8Char (c : Char) : List Nat :=
  let n := c.toNat
  if n < 128 then [n]
  else if n < 2048 then [192 + n / 64, 128 + n % 64]
  else if n < 65536 then [224 + n / 4096, 128 + n / 64 % 64, 128 + n % 64]
  else [240 + n / 262144, 128 + n / 4096 % 64, 128 + n / 64 % 64, 128 + n % 64]

/-- UTF-8 encoding of a string, `s.encode("utf-8")`. -/
def utf8 (s : String) : List Nat := (s.data.map utf8Char).flatten

/-- Truncation to 32 bits. -/
def w32 (x : Nat) : Nat := x % 4294967296

/-- 32-bit modular addition. -/
def add32 (a b : Nat) : Nat := (a + b) % 4294967296

/-- 32-bit right rotation by `n` places. -/
def rotr32 (n x : Nat) : Nat := w32 (x >>> n ||| x <<< (32 - n))

/-- 32-bit bitwise complement. -/
def not32 (x : Nat) : Nat := x ^^^ 4294967295

/-- SHA-256 small sigma 0. -/
def ssig0 (x : Nat) : Nat := rotr32 7 x ^^^ rotr32 18 x ^^^ (x >>> 3)

/-- SHA-256 small sigma 1. -/
def ssig1 (x : Nat) : Nat := rotr32 17 x ^^^ rotr32 19 x ^^^ (x >>> 10)

/-- SHA-256 big sigma 0. -/
def bsig0 (x : Nat) : Nat := rotr32 2 x ^^^ rotr32 13 x ^^^ rotr32 22 x

/-- SHA-256 big sigma 1. -/
def bsig1 (x : Nat) : Nat := rotr32 6 x ^^^ rotr32 11 x ^^^ rotr32 25 x

/-- The 64 SHA-256 round constants. -/
def sha256K : List Nat :=
  [1116352408, 1899447441, 3049323471, 3921009573, 961987163,
   1508970993, 2453635748, 2870763221, 3624381080, 310598401,
   607225278, 1426881987, 1925078388, 2162078206, 2614888103,
   3248222580, 3835390401, 4022224774, 264347078, 604807628,
   770255983, 1249150122, 1555081692, 1996064986, 2554220882,
   2821834349, 2952996808, 3210313671, 3336571891, 3584528711,
   113926993, 338241895, 666307205, 773529912, 1294757372,
   1396182291, 1695183700, 1986661051, 2177026350, 2456956037,
   2730485921, 2820302411, 3259730800, 3345764771, 3516065817,
   3600352804, 4094571909, 275423344, 430227734, 506948616,
   659060556, 883997877, 958139571, 1322822218, 1537002063,
   1747873779, 1955562222, 2024104815, 2227730452, 2361852424,
   2428436474, 2756734187, 3204031479, 3329325298]

/-- The initial SHA-256 hash state. -/
def sha256H0 : List Nat :=
  [1779033703, 3144134277, 1013904242, 2773480762, 1359893119,
   2600822924, 528734635, 1541459225]

/-- Write `v` as `n` bytes, big-endian. -/
def natToBytesBE : Nat → Nat → List Nat
  | 0, _ => []
  | n + 1, v => natToBytesBE n (v / 256) ++ [v % 256]

/-- SHA-256 padding: append `0x80`, zero bytes up to 56 mod 64, then the
bit length as an 8-byte big-endian integer. -/
def sha256Pad (msg : List Nat) : List Nat :=
  let L := msg.length
  let zeros := (64 + 56 - (L + 1) % 64) % 64
  msg ++ 128 :: List.replicate zeros 0 ++ natToBytesBE 8 (L * 8)

/-- Group a list of bytes into 32-bit big-endian words. -/
def bytesToWords : List Nat → List Nat
  | b0 :: b1 :: b2 :: b3 :: rest =>
    (((b0 * 256 + b1) * 256 + b2) * 256 + b3) :: bytesToWords rest
  | _ => []

/-- Split a word list into 16-word blocks (fuel-driven on the list length). -/
def chunks16Go : Nat → List Nat → List (List Nat)
  | 0, _ => []
  | _, [] => []
  | fuel + 1, l => l.take 16 :: chunks16Go fuel (l.drop 16)

/-- Split a word list into 16-word blocks. -/
def chunks16 (l : List Nat) : List (List Nat) := chunks16Go l.length l

/-- Extend the 16 words of one block to the 64-entry message schedule. -/
def sha256Extend : Nat → List Nat → List Nat
  | 0, ws => ws
  | n + 1, ws =>
    let ws' := sha256Extend n ws
    let i := ws'.length
    ws' ++ [add32 (add32 (ssig1 (ws'.getD (i - 2) 0)) (ws'.getD (i - 7) 0))
              (add32 (ssig0 (ws'.getD (i - 15) 0)) (ws'.getD (i - 16) 0))]

/-- One SHA-256 round: state is the list `[a, b, c, d, e, f, g, h]`. -/
def sha256Round (st : List Nat) (kw : Nat × Nat) : List Nat :=
  match st with
  | [a, b, c, d, e, f, g, h] =>
    let t1 := add32 (add32 (add32 h (bsig1 e))
                (add32 ((e &&& f) ^^^ (not32 e &&& g)) kw.1)) kw.2
    let t2 := add32 (bsig0 a) ((a &&& b) ^^^ (a &&& c) ^^^ (b &&& c))
    [add32 t1 t2, a, b, c, add32 d t1, e, f, g]
  | st => st

/-- Compress one 16-word block into the running hash state. -/
def sha256Block (h : List Nat) (block : List Nat) : List Nat :=
  let ws := sha256Extend 48 block
  let st := (sha256K.zip ws).foldl sha256Round h
  (h.zip st).map fun p => add32 p.1 p.2

/-- SHA-256 of a byte list, as a 32-byte list. -/
def sha256 (msg : List Nat) : List Nat :=
  let blocks := chunks16 (bytesToWords (sha256Pad msg))
  ((blocks.foldl sha256Block sha256H0).map (natToBytesBE 4)).flatten

/-- HMAC-SHA256 (`hmac.new(key, msg, hashlib.sha256).digest()`): the key is
hashed when longer than the 64-byte block, zero-padded to 64 bytes, then the
usual ipad/opad construction. -/
def hmacSha256 (key msg : List Nat) : List Nat :=
  let k0 := if 64 < key.length then sha256 key else key
  let kp := k0 ++ List.replicate (64 - k0.length) 0
  sha256 ((kp.map fun b => b ^^^ 0x5c) ++
    sha256 ((kp.map fun b => b ^^^ 0x36) ++ msg))

/-- The standard Base64 alphabet, index 0–63 (`A–Z a–z 0–9 + /`). -/
def b64Char (n : Nat) : Char :=
  if n < 26 then Char.ofNat (65 + n)
  else if n < 52 then Char.ofNat (97 + (n - 26))
  else if n < 62 then Char.ofNat (48 + (n - 52))
  else if n = 62 then '+'
  else '/'

/-- Base64-encode a byte list in 3-byte groups with `=` padding. -/
def b64Go : List Nat → List Char
  | [] => []
  | [b0] =>
    [b64Char (b0 >>> 2), b64Char ((b0 % 4) <<< 4), '=', '=']
  | [b0, b1] =>
    [b64Char (b0 >>> 2), b64Char (((b0 % 4) <<< 4) ||| (b1 >>> 4)),
     b64Char ((b1 % 16) <<< 2), '=']
  | b0 :: b1 :: b2 :: rest =>
    b64Char (b0 >>> 2) :: b64Char (((b0 % 4) <<< 4) ||| (b1 >>> 4)) ::
    b64Char (((b1 % 16) <<< 2) ||| (b2 >>> 6)) :: b64Char (b2 % 64) :: b64Go rest

/-- Python `base64.b64encode(...).decode("utf-8")` as a Lean string. -/
def b64encode (bytes : List Nat) : String := String.mk (b64Go bytes)

/-- Source method `PushNotification.generate_dingtalk_sign(timestamp, secret)`:
Base64 of HMAC-SHA256 with key `secret.encode("utf-8")` over
`f"{timestamp}\n{secret}".encode("utf-8")`. -/
def generate_dingtalk_sign (timestamp secret : String) : String :=
  let string_to_sign := timestamp ++ "\n" ++ secret
  b64encode (hmacSha256 (utf8 secret) (utf8 string_to_sign))

/-- Number of HTTP attempts recorded in a trace. -/
def httpCount (evs : List Ev) : Nat :=
  (evs.filter fun e => match e with | Ev.http _ => true | _ => false).length

/-- Number of signature computations recorded in a trace. -/
def signCount (evs : List Ev) : Nat :=
  (evs.filter fun e => match e with | Ev.sign _ => true | _ => false).length

/-- The sleep durations of a trace, in order. -/
def sleeps (evs : List Ev) : List Nat :=
  evs.filterMap fun e => match e with | Ev.sleep d => some d | _ => none


/-! ### Concrete oracles used by witnesses and counterexamples -/

/-- A transport whose every attempt succeeds. -/
def netOk : Nat → ReqOutcome := fun _ => ReqOutcome.success

/-- A transport whose every attempt raises a `RequestException`. -/
def netFail : Nat → ReqOutcome := fun _ => ReqOutcome.requestError

/-- A transport whose every attempt raises an exception that is not a
`RequestException`. -/
def netOther : Nat → ReqOutcome := fun _ => ReqOutcome.otherError

/-- A DingTalk network whose every attempt returns HTTP 200 with
`errcode = 0`. -/
def dnetOk : Nat → DingNetOutcome := fun _ => DingNetOutcome.ok (some 0)

/-- A randomness stream that is constantly 0 (so every `randint lo hi`
returns `lo`). -/
def rand0 : Nat → Nat := fun _ => 0

/-- A randomness stream that is constantly 180 (so `randint 180 360`
returns `360`, the inclusive upper endpoint). -/
def rand180 : Nat → Nat := fun _ => 180

/-- A sample world in which every channel is configured and succeeds. -/
def w0 : World where
  ppNet := netOk
  wxNet := netOk
  tgProxied := true
  tgDirect := true
  dingCfg := { webhook := some "https://oapi.dingtalk.com/robot/send?access_token=x",
               secret := some "s" }
  dingNet := dnetOk
  rand := rand0

/-! ### Trace shapes and step lemmas for the retry loops -/

/-- The expected trace of `n` consecutive failed PushPlus/WxPusher attempts
starting at attempt `i`: each is an HTTP request followed by its backoff
sleep. -/
def failSeg (rand : Nat → Nat) : Nat → Nat → List Ev
  | _, 0 => []
  | i, n + 1 =>
    Ev.http i :: Ev.sleep (randint 180 360 (rand i)) :: failSeg rand (i + 1) n

lemma randint_bounds (lo hi r : Nat) (h : lo ≤ hi) :
    lo ≤ randint lo hi r ∧ randint lo hi r ≤ hi := by
  have hm : r % (hi - lo + 1) < hi - lo + 1 := Nat.mod_lt r (by omega)
  unfold randint
  omega

lemma httpCount_append (l1 l2 : List Ev) :
    httpCount (l1 ++ l2) = httpCount l1 + httpCount l2 := by
  simp [httpCount, List.filter_append]

lemma signCount_append (l1 l2 : List Ev) :
    signCount (l1 ++ l2) = signCount l1 + signCount l2 := by
  simp [signCount, List.filter_append]

lemma sleeps_append (l1 l2 : List Ev) :
    sleeps (l1 ++ l2) = sleeps l1 ++ sleeps l2 := by
  simp [sleeps, List.filterMap_append]

lemma ppGo_succ (net : Nat → ReqOutcome) (rand : Nat → Nat) (r i : Nat)
    (h : net i = ReqOutcome.success) :
    pushplusGo net rand (r + 1) i = ([Ev.http i], FnExit.retNone) := by
  simp [pushplusGo, h]

lemma ppGo_fail (net : Nat → ReqOutcome) (rand : Nat → Nat) (r i : Nat)
    (h : net i = ReqOutcome.requestError) :
    pushplusGo net rand (r + 1) i =
      if i < 4 then
        (Ev.http i :: Ev.sleep (randint 180 360 (rand i)) ::
          (pushplusGo net rand r (i + 1)).1, (pushplusGo net rand r (i + 1)).2)
      else ([Ev.http i], FnExit.retNone) := by
  simp [pushplusGo, h, pushplusAttempts]

lemma ppGo_other (net : Nat → ReqOutcome) (rand : Nat → Nat) (r i : Nat)
    (h : net i = ReqOutcome.otherError) :
    pushplusGo net rand (r + 1) i = ([Ev.http i], FnExit.raised) := by
  simp [pushplusGo, h]

/-- The WxPusher retry loop is the same state machine as the PushPlus one. -/
lemma wxGo_eq_ppGo (net : Nat → ReqOutcome) (rand : Nat → Nat) :
    ∀ r i, wxpusherGo net rand r i = pushplusGo net rand r i := by
  intro r
  induction r with
  | zero => intro i; rfl
  | succ r ih =>
    intro i
    cases h : net i with
    | success => simp [wxpusherGo, pushplusGo, h]
    | requestError =>
      simp [wxpusherGo, pushplusGo, h, wxpusherAttempts, pushplusAttempts, ih]
    | otherError => simp [wxpusherGo, pushplusGo, h]

lemma push_wxpusher_eq_push_pushplus (net : Nat → ReqOutcome)
    (rand : Nat → Nat) : push_wxpusher net rand = push_pushplus net rand := by
  unfold push_wxpusher push_pushplus wxpusherAttempts pushplusAttempts
  exact wxGo_eq_ppGo net rand 5 0

lemma ppGo_fail1 (net : Nat → ReqOutcome) (rand : Nat → Nat) (r i : Nat)
    (h : net i = ReqOutcome.requestError) (hi : i < 4) :
    (pushplusGo net rand (r + 1) i).1 =
      Ev.http i :: Ev.sleep (randint 180 360 (rand i)) ::
        (pushplusGo net rand r (i + 1)).1 := by
  rw [ppGo_fail net rand r i h, if_pos hi]

/-- A run of the PushPlus loop that sees `n` failures from attempt `i` and
then a success produces exactly the failure segment followed by the last,
successful HTTP attempt. -/
lemma ppGo_run (net : Nat → ReqOutcome) (rand : Nat → Nat) :
    ∀ n i, i + n ≤ 4 →
      (∀ j, j < n → net (i + j) = ReqOutcome.requestError) →
      net (i + n) = ReqOutcome.success →
      pushplusGo net rand (5 - i) i =
        (failSeg rand i n ++ [Ev.http (i + n)], FnExit.retNone) := by
  intro n
  induction n with
  | zero =>
    intro i hle hfail hsucc
    obtain ⟨r, hr⟩ : ∃ r, 5 - i = r + 1 := ⟨4 - i, by omega⟩
    rw [hr, ppGo_succ net rand r i (by simpa using hsucc)]
    simp [failSeg]
  | succ n ih =>
    intro i hle hfail hsucc
    have e0 : net i = ReqOutcome.requestError := by
      simpa using hfail 0 (by omega)
    rw [show 5 - i = (5 - (i + 1)) + 1 by omega,
        ppGo_fail net rand (5 - (i + 1)) i e0, if_pos (by omega : i < 4)]
    have := ih (i + 1) (by omega)
      (fun j hj => by
        have h2 := hfail (j + 1) (by omega)
        rwa [show i + (j + 1) = i + 1 + j by omega] at h2)
      (by rwa [show i + 1 + n = i + (n + 1) by omega])
    rw [this]
    simp [failSeg, show i + 1 + n = i + (n + 1) by omega]

/-- A run of the PushPlus loop in which every attempt fails makes all its
remaining attempts, sleeping after each non-final one. -/
lemma ppGo_run_fail (net : Nat → ReqOutcome) (rand : Nat → Nat) :
    ∀ n i, i + (n + 1) = 5 →
      (∀ j, j < n + 1 → net (i + j) = ReqOutcome.requestError) →
      pushplusGo net rand (n + 1) i =
        (failSeg rand i n ++ [Ev.http (i + n)], FnExit.retNone) := by
  intro n
  induction n with
  | zero =>
    intro i hle hfail
    have e0 : net i = ReqOutcome.requestError := by simpa using hfail 0 (by omega)
    rw [ppGo_fail net rand 0 i e0, if_neg (by omega : ¬ i < 4)]
    simp [failSeg]
  | succ n ih =>
    intro i hle hfail
    have e0 : net i = ReqOutcome.requestError := by simpa using hfail 0 (by omega)
    rw [ppGo_fail net rand (n + 1) i e0, if_pos (by omega : i < 4)]
    have := ih (i + 1) (by omega)
      (fun j hj => by
        have h2 := hfail (j + 1) (by omega)
        rwa [show i + (j + 1) = i + 1 + j by omega] at h2)
    rw [this]
    simp [failSeg, show i + 1 + n = i + (n + 1) by omega]

/-- As long as no attempt raises an exception other than a
`RequestException`, the PushPlus loop returns normally. -/
lemma ppGo_no_other (net : Nat → ReqOutcome) (rand : Nat → Nat) :
    ∀ r i, (∀ j, i ≤ j → j < i + r → net j ≠ ReqOutcome.otherError) →
      (pushplusGo net rand r i).2 = FnExit.retNone := by
  intro r
  induction r with
  | zero => intro i _; rfl
  | succ r ih =>
    intro i h
    cases hn : net i with
    | success => rw [ppGo_succ net rand r i hn]
    | requestError =>
      rw [ppGo_fail net rand r i hn]
      by_cases hi : i < 4
      · rw [if_pos hi]
        exact ih (i + 1) (fun j h1 h2 => h j (by omega) (by omega))
      · rw [if_neg hi]
    | otherError => exact absurd hn (h i (le_refl i) (by omega))

/-- Every iteration of the PushPlus loop that runs at all begins with its
HTTP attempt. -/
lemma ppGo_head (net : Nat → ReqOutcome) (rand : Nat → Nat) :
    ∀ r i, 0 < r → ∃ rest, (pushplusGo net rand r i).1 = Ev.http i :: rest := by
  intro r i hr
  match r, hr with
  | r + 1, _ =>
    cases hn : net i with
    | success => exact ⟨[], by rw [ppGo_succ net rand r i hn]⟩
    | requestError =>
      by_cases hi : i < 4
      · exact ⟨Ev.sleep (randint 180 360 (rand i)) ::
          (pushplusGo net rand r (i + 1)).1, ppGo_fail1 net rand r i hn hi⟩
      · exact ⟨[], by rw [ppGo_fail net rand r i hn, if_neg hi]⟩
    | otherError => exact ⟨[], by rw [ppGo_other net rand r i hn]⟩

/-! ### Step lemmas for the DingTalk loop -/

/-- A DingTalk attempt `i` qualifies as a success exactly when the secret is
configured (so signing succeeds), the HTTP call raises no exception (2xx)
and the JSON body has `errcode = 0`. -/
def dingQualify (cfg : DingConfig) (net : Nat → DingNetOutcome) (i : Nat) :
    Prop :=
  cfg.secret.isSome = true ∧ net i = DingNetOutcome.ok (some 0)

instance (cfg : DingConfig) (net : Nat → DingNetOutcome) (i : Nat) :
    Decidable (dingQualify cfg net i) :=
  inferInstanceAs (Decidable (_ ∧ _))

/-- The events of one failed DingTalk attempt: with no secret only the
signing step runs (and raises); with a secret the attempt also reaches the
HTTP call. -/
def stepEvs (cfg : DingConfig) (net : Nat → DingNetOutcome) (i : Nat) :
    List Ev :=
  match cfg.secret with
  | none => [Ev.sign i]
  | some _ =>
    match net i with
    | DingNetOutcome.exn => [Ev.sign i, Ev.http i]
    | DingNetOutcome.ok _ => [Ev.sign i, Ev.http i]

lemma signCount_stepEvs (cfg : DingConfig) (net : Nat → DingNetOutcome)
    (i : Nat) : signCount (stepEvs cfg net i) = 1 := by
  rcases hs : cfg.secret with _ | sec
  · simp [stepEvs, hs, signCount]
  · rcases hn : net i with _ | ec <;> simp [stepEvs, hs, hn, signCount]

lemma httpCount_stepEvs (cfg : DingConfig) (net : Nat → DingNetOutcome)
    (i : Nat) : httpCount (stepEvs cfg net i) ≤ 1 := by
  rcases hs : cfg.secret with _ | sec
  · simp [stepEvs, hs, httpCount]
  · rcases hn : net i with _ | ec <;> simp [stepEvs, hs, hn, httpCount]

lemma sleeps_stepEvs (cfg : DingConfig) (net : Nat → DingNetOutcome)
    (i : Nat) : sleeps (stepEvs cfg net i) = [] := by
  rcases hs : cfg.secret with _ | sec
  · simp [stepEvs, hs, sleeps]
  · rcases hn : net i with _ | ec <;> simp [stepEvs, hs, hn, sleeps]

lemma dingGo_succ (cfg : DingConfig) (net : Nat → DingNetOutcome)
    (rand : Nat → Nat) (r i : Nat) (h : dingQualify cfg net i) :
    dingGo cfg net rand (r + 1) i = ([Ev.sign i, Ev.http i], true) := by
  obtain ⟨hs, hn⟩ := h
  rcases hsec : cfg.secret with _ | sec
  · rw [hsec] at hs; simp at hs
  · simp [dingGo, hsec, hn]

lemma dingGo_fail (cfg : DingConfig) (net : Nat → DingNetOutcome)
    (rand : Nat → Nat) (r i : Nat) (h : ¬ dingQualify cfg net i) :
    dingGo cfg net rand (r + 1) i =
      if i < 2 then
        (stepEvs cfg net i ++ Ev.sleep (randint 2 5 (rand i)) ::
          (dingGo cfg net rand r (i + 1)).1, (dingGo cfg net rand r (i + 1)).2)
      else (stepEvs cfg net i, false) := by
  rcases hsec : cfg.secret with _ | sec
  · simp [dingGo, hsec, stepEvs, dingAttempts]
  · rcases hn : net i with _ | ec
    · simp [dingGo, hsec, hn, stepEvs, dingAttempts]
    · have hne : ¬ ec = some 0 := by
        intro he
        exact h ⟨by simp [hsec], by rw [hn, he]⟩
      simp [dingGo, hsec, hn, hne, stepEvs, dingAttempts]

/-- The four possible shapes of a DingTalk run with a configured webhook:
success on attempt 0, 1 or 2 (stopping there), or three failed attempts. -/
lemma ding_run (cfg : DingConfig) (net : Nat → DingNetOutcome)
    (rand : Nat → Nat) (hw : strFalsy cfg.webhook = false) :
    (dingQualify cfg net 0 ∧
      push_dingtalk cfg net rand = ([Ev.sign 0, Ev.http 0], true)) ∨
    (¬ dingQualify cfg net 0 ∧ dingQualify cfg net 1 ∧
      push_dingtalk cfg net rand =
        (stepEvs cfg net 0 ++ Ev.sleep (randint 2 5 (rand 0)) ::
          [Ev.sign 1, Ev.http 1], true)) ∨
    (¬ dingQualify cfg net 0 ∧ ¬ dingQualify cfg net 1 ∧
      dingQualify cfg net 2 ∧
      push_dingtalk cfg net rand =
        (stepEvs cfg net 0 ++ Ev.sleep (randint 2 5 (rand 0)) ::
          (stepEvs cfg net 1 ++ Ev.sleep (randint 2 5 (rand 1)) ::
            [Ev.sign 2, Ev.http 2]), true)) ∨
    (¬ dingQualify cfg net 0 ∧ ¬ dingQualify cfg net 1 ∧
      ¬ dingQualify cfg net 2 ∧
      push_dingtalk cfg net rand =
        (stepEvs cfg net 0 ++ Ev.sleep (randint 2 5 (rand 0)) ::
          (stepEvs cfg net 1 ++ Ev.sleep (randint 2 5 (rand 1)) ::
            stepEvs cfg net 2), false)) := by
  have hp : push_dingtalk cfg net rand = dingGo cfg net rand 3 0 := by
    simp [push_dingtalk, hw, dingAttempts]
  by_cases q0 : dingQualify cfg net 0
  · exact Or.inl ⟨q0, by rw [hp, dingGo_succ cfg net rand 2 0 q0]⟩
  · by_cases q1 : dingQualify cfg net 1
    · refine Or.inr (Or.inl ⟨q0, q1, ?_⟩)
      rw [hp, dingGo_fail cfg net rand 2 0 q0]
      simp [dingGo_succ cfg net rand 1 1 q1]
    · by_cases q2 : dingQualify cfg net 2
      · refine Or.inr (Or.inr (Or.inl ⟨q0, q1, q2, ?_⟩))
        rw [hp, dingGo_fail cfg net rand 2 0 q0]
        rw [dingGo_fail cfg net rand 1 1 q1]
        simp [dingGo_succ cfg net rand 0 2 q2]
      · refine Or.inr (Or.inr (Or.inr ⟨q0, q1, q2, ?_⟩))
        rw [hp, dingGo_fail cfg net rand 2 0 q0]
        rw [dingGo_fail cfg net rand 1 1 q1]
        rw [dingGo_fail cfg net rand 0 2 q2]
        simp

/-! ### Claim theorems -/

/-- C1: for every method string not equal to one of `"pushplus"`,
`"telegram"`, `"wxpusher"`, `"dingtalk"`, `push(content, method)` raises
`ValueError` synchronously with zero HTTP calls and no retry (empty trace);
for each of the four known strings it delegates to exactly the matching
sender. -/
theorem push_dispatch_spec (w : World) (content method : String)
    (h1 : method ≠ "pushplus") (h2 : method ≠ "telegram")
    (h3 : method ≠ "wxpusher") (h4 : method ≠ "dingtalk") :
    push w content method = ([], PushOutcome.valueError) ∧
    push w content "pushplus" =
      ((push_pushplus w.ppNet w.rand).1,
        liftExit (push_pushplus w.ppNet w.rand).2) ∧
    push w content "telegram" =
      ((push_telegram w.tgProxied w.tgDirect).1,
        PushOutcome.retBool (push_telegram w.tgProxied w.tgDirect).2) ∧
    push w content "wxpusher" =
      ((push_wxpusher w.wxNet w.rand).1,
        liftExit (push_wxpusher w.wxNet w.rand).2) ∧
    push w content "dingtalk" =
      ((push_dingtalk w.dingCfg w.dingNet w.rand).1,
        PushOutcome.retBool (push_dingtalk w.dingCfg w.dingNet w.rand).2) := by
  refine ⟨?_, ?_, ?_, ?_, ?_⟩ <;> simp [push, h1, h2, h3, h4]

/-- Witness for C1: with every channel configured, the unknown channel
`"email"` yields `ValueError` and an empty trace, and the four known
channels delegate. -/
theorem push_dispatch_spec_witness :
    push w0 "hi" "email" = ([], PushOutcome.valueError) ∧
    push w0 "hi" "pushplus" =
      ((push_pushplus w0.ppNet w0.rand).1,
        liftExit (push_pushplus w0.ppNet w0.rand).2) ∧
    push w0 "hi" "telegram" =
      ((push_telegram w0.tgProxied w0.tgDirect).1,
        PushOutcome.retBool (push_telegram w0.tgProxied w0.tgDirect).2) ∧
    push w0 "hi" "wxpusher" =
      ((push_wxpusher w0.wxNet w0.rand).1,
        liftExit (push_wxpusher w0.wxNet w0.rand).2) ∧
    push w0 "hi" "dingtalk" =
      ((push_dingtalk w0.dingCfg w0.dingNet w0.rand).1,
        PushOutcome.retBool (push_dingtalk w0.dingCfg w0.dingNet w0.rand).2) :=
  push_dispatch_spec w0 "hi" "email" (by decide) (by decide) (by decide)
    (by decide)

set_option maxRecDepth 100000 in
/-- C2: `generate_dingtalk_sign` is the base64 encoding of HMAC-SHA256 with
key the UTF-8 bytes of the secret over the UTF-8 bytes of
`"{timestamp}\n{secret}"`; it is deterministic; and on timestamp
`"1700000000000"` and secret `"testsecret"` it equals the independently
computed HMAC-SHA256+base64 test vector of `"1700000000000\ntestsecret"`. -/
theorem generate_dingtalk_sign_spec :
    (∀ t s : String, generate_dingtalk_sign t s =
      b64encode (hmacSha256 (utf8 s) (utf8 (t ++ "\n" ++ s)))) ∧
    (∀ t₁ t₂ s₁ s₂ : String, t₁ = t₂ → s₁ = s₂ →
      generate_dingtalk_sign t₁ s₁ = generate_dingtalk_sign t₂ s₂) ∧
    generate_dingtalk_sign "1700000000000" "testsecret" =
      "d043yCasNZ+KC1N0lrVg+Aan0gEIKPvRfzRqMlUUwzk=" :=
  ⟨fun _ _ => rfl, fun _ _ _ _ h1 h2 => by rw [h1, h2], by decide⟩

/-- Witness for C2: determinism applied at the concrete timestamp and
secret. -/
theorem generate_dingtalk_sign_spec_witness :
    generate_dingtalk_sign "1700000000000" "testsecret" =
      generate_dingtalk_sign "1700000000000" "testsecret" :=
  generate_dingtalk_sign_spec.2.1 "1700000000000" "1700000000000"
    "testsecret" "testsecret" rfl rfl

/-- C6: the Telegram sender makes at most two HTTP attempts with no retry
loop; if the proxied attempt raises, exactly one direct attempt follows; it
returns `true` iff the proxied or the direct attempt succeeds and `false`
iff both fail. -/
theorem push_telegram_fallback_spec (p d : Bool) :
    httpCount (push_telegram p d).1 ≤ 2 ∧
    (p = true → (push_telegram p d).1 = [Ev.http 0]) ∧
    (p = false → (push_telegram p d).1 = [Ev.http 0, Ev.http 1]) ∧
    ((push_telegram p d).2 = true ↔ p = true ∨ d = true) ∧
    ((push_telegram p d).2 = false ↔ p = false ∧ d = false) := by
  cases p <;> cases d <;> decide

/-- Witness for C6: a failing proxied attempt is followed by exactly one
direct attempt. -/
theorem push_telegram_fallback_spec_witness :
    (push_telegram false true).1 = [Ev.http 0, Ev.http 1] :=
  (push_telegram_fallback_spec false true).2.2.1 rfl

/-- C7: with the DingTalk webhook not configured (absent or empty), the
sender returns `false` immediately with zero HTTP calls and no retry
sleeps. -/
theorem push_dingtalk_no_webhook (cfg : DingConfig)
    (net : Nat → DingNetOutcome) (rand : Nat → Nat)
    (hw : strFalsy cfg.webhook = true) :
    push_dingtalk cfg net rand = ([], false) ∧
    httpCount (push_dingtalk cfg net rand).1 = 0 ∧
    sleeps (push_dingtalk cfg net rand).1 = [] := by
  have h : push_dingtalk cfg net rand = ([], false) := by
    simp [push_dingtalk, hw]
  exact ⟨h, by rw [h]; rfl, by rw [h]; rfl⟩

/-- Witness for C7: an absent webhook yields an immediate `false` with an
empty trace. -/
theorem push_dingtalk_no_webhook_witness :
    push_dingtalk ⟨none, none⟩ dnetOk rand0 = ([], false) ∧
    httpCount (push_dingtalk ⟨none, none⟩ dnetOk rand0).1 = 0 ∧
    sleeps (push_dingtalk ⟨none, none⟩ dnetOk rand0).1 = [] :=
  push_dingtalk_no_webhook ⟨none, none⟩ dnetOk rand0 rfl

/-- C10: with a configured webhook but an absent secret, every attempt fails
while signing (before any HTTP call) and is caught by the per-attempt
handler: the sender makes 3 signing attempts, zero HTTP calls, sleeps 2–5 s
between non-final attempts, and returns `false` without raising. -/
theorem push_dingtalk_missing_secret (wh : String)
    (net : Nat → DingNetOutcome) (rand : Nat → Nat) (hw : wh ≠ "") :
    push_dingtalk ⟨some wh, none⟩ net rand =
      ([Ev.sign 0, Ev.sleep (randint 2 5 (rand 0)), Ev.sign 1,
        Ev.sleep (randint 2 5 (rand 1)), Ev.sign 2], false) ∧
    httpCount (push_dingtalk ⟨some wh, none⟩ net rand).1 = 0 ∧
    signCount (push_dingtalk ⟨some wh, none⟩ net rand).1 = 3 ∧
    (∀ d ∈ sleeps (push_dingtalk ⟨some wh, none⟩ net rand).1,
      2 ≤ d ∧ d ≤ 5) := by
  have hwf : strFalsy ((⟨some wh, none⟩ : DingConfig)).webhook = false := by
    show (wh == "") = false
    exact beq_eq_false_iff_ne.mpr hw
  have hnq : ∀ i, ¬ dingQualify ⟨some wh, none⟩ net i := by
    intro i h
    simpa using h.1
  have heq : push_dingtalk ⟨some wh, none⟩ net rand =
      ([Ev.sign 0, Ev.sleep (randint 2 5 (rand 0)), Ev.sign 1,
        Ev.sleep (randint 2 5 (rand 1)), Ev.sign 2], false) := by
    rcases ding_run ⟨some wh, none⟩ net rand hwf with
      ⟨q0, _⟩ | ⟨_, q1, _⟩ | ⟨_, _, q2, _⟩ | ⟨_, _, _, h4⟩
    · exact absurd q0 (hnq 0)
    · exact absurd q1 (hnq 1)
    · exact absurd q2 (hnq 2)
    · rw [h4]; simp [stepEvs]
  refine ⟨heq, by rw [heq]; rfl, by rw [heq]; rfl, ?_⟩
  rw [heq]
  intro d hd
  simp [sleeps] at hd
  rcases hd with h | h <;> rw [h] <;>
    exact randint_bounds 2 5 _ (by omega)

/-- Witness for C10: concrete webhook, absent secret. -/
theorem push_dingtalk_missing_secret_witness :
    push_dingtalk ⟨some "https://x", none⟩ dnetOk rand0 =
      ([Ev.sign 0, Ev.sleep (randint 2 5 (rand0 0)), Ev.sign 1,
        Ev.sleep (randint 2 5 (rand0 1)), Ev.sign 2], false) ∧
    httpCount (push_dingtalk ⟨some "https://x", none⟩ dnetOk rand0).1 = 0 ∧
    signCount (push_dingtalk ⟨some "https://x", none⟩ dnetOk rand0).1 = 3 ∧
    (∀ d ∈ sleeps (push_dingtalk ⟨some "https://x", none⟩ dnetOk rand0).1,
      2 ≤ d ∧ d ≤ 5) :=
  push_dingtalk_missing_secret "https://x" dnetOk rand0 (by decide)

/-- A transport that fails on the first two attempts and succeeds from the
third on. -/
def net2F : Nat → ReqOutcome :=
  fun i => if i < 2 then ReqOutcome.requestError else ReqOutcome.success

/-- C4: for every `N < 5`, if the PushPlus / WxPusher transport fails on the
first `N` attempts and succeeds on attempt `N + 1`, exactly `N + 1` HTTP
attempts are made and no further attempt or sleep occurs after the first
success (the successful HTTP attempt is the last trace event). -/
theorem pushplus_wxpusher_fail_then_success (net : Nat → ReqOutcome)
    (rand : Nat → Nat) (N : Nat) (hN : N < 5)
    (hfail : ∀ i, i < N → net i = ReqOutcome.requestError)
    (hsucc : net N = ReqOutcome.success) :
    push_pushplus net rand =
      (failSeg rand 0 N ++ [Ev.http N], FnExit.retNone) ∧
    push_wxpusher net rand =
      (failSeg rand 0 N ++ [Ev.http N], FnExit.retNone) ∧
    httpCount (push_pushplus net rand).1 = N + 1 ∧
    httpCount (push_wxpusher net rand).1 = N + 1 ∧
    (push_pushplus net rand).1.getLast? = some (Ev.http N) ∧
    (push_wxpusher net rand).1.getLast? = some (Ev.http N) := by
  have hpp : push_pushplus net rand =
      (failSeg rand 0 N ++ [Ev.http N], FnExit.retNone) := by
    have h := ppGo_run net rand N 0 (by omega)
      (fun j hj => by simpa using hfail j hj) (by simpa using hsucc)
    simpa [push_pushplus, pushplusAttempts] using h
  have hwx : push_wxpusher net rand =
      (failSeg rand 0 N ++ [Ev.http N], FnExit.retNone) := by
    rw [push_wxpusher_eq_push_pushplus, hpp]
  have hcnt : httpCount (failSeg rand 0 N ++ [Ev.http N]) = N + 1 := by
    have hgen : ∀ n i, httpCount (failSeg rand i n) = n := by
      intro n
      induction n with
      | zero => intro i; rfl
      | succ n ih => intro i; simp [failSeg, httpCount] at ih ⊢; exact ih (i + 1)
    rw [httpCount_append, hgen]
    rfl
  have hlast : (failSeg rand 0 N ++ [Ev.http N]).getLast? = some (Ev.http N) := by
    rw [List.getLast?_concat]
  exact ⟨hpp, hwx, by rw [hpp]; exact hcnt, by rw [hwx]; exact hcnt,
    by rw [hpp]; exact hlast, by rw [hwx]; exact hlast⟩

/-- Witness for C4: a transport failing twice then succeeding makes exactly
three HTTP attempts. -/
theorem pushplus_wxpusher_fail_then_success_witness :
    push_pushplus net2F rand0 =
      (failSeg rand0 0 2 ++ [Ev.http 2], FnExit.retNone) ∧
    push_wxpusher net2F rand0 =
      (failSeg rand0 0 2 ++ [Ev.http 2], FnExit.retNone) ∧
    httpCount (push_pushplus net2F rand0).1 = 2 + 1 ∧
    httpCount (push_wxpusher net2F rand0).1 = 2 + 1 ∧
    (push_pushplus net2F rand0).1.getLast? = some (Ev.http 2) ∧
    (push_wxpusher net2F rand0).1.getLast? = some (Ev.http 2) :=
  pushplus_wxpusher_fail_then_success net2F rand0 2 (by decide) (by decide)
    (by decide)

/-- Counterexample to C5 as stated: Python's `random.randint(180, 360)` is
inclusive of 360, so with an always-failing transport a sleep of exactly
360 seconds can occur, which does not lie in the half-open interval
`[180, 360)`. -/
theorem pushplus_wxpusher_sleep_interval_cex :
    (∀ i, netFail i = ReqOutcome.requestError) ∧
    Ev.sleep 360 ∈ (push_pushplus netFail rand180).1 ∧
    Ev.sleep 360 ∈ (push_wxpusher netFail rand180).1 ∧
    ¬ (360 : Nat) < 360 :=
  ⟨fun _ => rfl, by decide, by decide, by decide⟩

/-- C5 (amended): with an always-failing transport, the PushPlus / WxPusher
senders make exactly 5 HTTP attempts, each of the first 4 followed by a
sleep in the closed interval [180, 360] seconds, no sleep after the final
attempt, and return normally without raising. -/
theorem pushplus_wxpusher_always_fail (net : Nat → ReqOutcome)
    (rand : Nat → Nat) (hfail : ∀ i, net i = ReqOutcome.requestError) :
    push_pushplus net rand =
      (failSeg rand 0 4 ++ [Ev.http 4], FnExit.retNone) ∧
    push_wxpusher net rand =
      (failSeg rand 0 4 ++ [Ev.http 4], FnExit.retNone) ∧
    httpCount (push_pushplus net rand).1 = 5 ∧
    httpCount (push_wxpusher net rand).1 = 5 ∧
    sleeps (push_pushplus net rand).1 =
      [randint 180 360 (rand 0), randint 180 360 (rand 1),
       randint 180 360 (rand 2), randint 180 360 (rand 3)] ∧
    (∀ d ∈ sleeps (push_pushplus net rand).1, 180 ≤ d ∧ d ≤ 360) ∧
    (∀ d ∈ sleeps (push_wxpusher net rand).1, 180 ≤ d ∧ d ≤ 360) ∧
    (push_pushplus net rand).1.getLast? = some (Ev.http 4) := by
  have hpp : push_pushplus net rand =
      (failSeg rand 0 4 ++ [Ev.http 4], FnExit.retNone) := by
    have h := ppGo_run_fail net rand 4 0 (by omega)
      (fun j _ => by simpa using hfail j)
    simpa [push_pushplus, pushplusAttempts] using h
  have hwx : push_wxpusher net rand =
      (failSeg rand 0 4 ++ [Ev.http 4], FnExit.retNone) := by
    rw [push_wxpusher_eq_push_pushplus, hpp]
  have hsl : sleeps (push_pushplus net rand).1 =
      [randint 180 360 (rand 0), randint 180 360 (rand 1),
       randint 180 360 (rand 2), randint 180 360 (rand 3)] := by
    rw [hpp]; rfl
  have hbound : ∀ d ∈ sleeps (push_pushplus net rand).1,
      180 ≤ d ∧ d ≤ 360 := by
    rw [hsl]
    intro d hd
    simp only [List.mem_cons, List.not_mem_nil, or_false] at hd
    rcases hd with h | h | h | h <;> rw [h] <;>
      exact randint_bounds 180 360 _ (by omega)
  refine ⟨hpp, hwx, by rw [hpp]; rfl, by rw [hwx]; rfl, hsl, hbound, ?_,
    by rw [hpp]; rfl⟩
  rw [push_wxpusher_eq_push_pushplus]
  exact hbound

/-- Witness for C5 (amended): the constantly failing transport with a zero
randomness stream. -/
theorem pushplus_wxpusher_always_fail_witness :
    push_pushplus netFail rand0 =
      (failSeg rand0 0 4 ++ [Ev.http 4], FnExit.retNone) ∧
    push_wxpusher netFail rand0 =
      (failSeg rand0 0 4 ++ [Ev.http 4], FnExit.retNone) ∧
    httpCount (push_pushplus netFail rand0).1 = 5 ∧
    httpCount (push_wxpusher netFail rand0).1 = 5 ∧
    sleeps (push_pushplus netFail rand0).1 =
      [randint 180 360 (rand0 0), randint 180 360 (rand0 1),
       randint 180 360 (rand0 2), randint 180 360 (rand0 3)] ∧
    (∀ d ∈ sleeps (push_pushplus netFail rand0).1, 180 ≤ d ∧ d ≤ 360) ∧
    (∀ d ∈ sleeps (push_wxpusher netFail rand0).1, 180 ≤ d ∧ d ≤ 360) ∧
    (push_pushplus netFail rand0).1.getLast? = some (Ev.http 4) :=
  pushplus_wxpusher_always_fail netFail rand0 (fun _ => rfl)

/-- Counterexample to C9 as stated: an exception that is not a
`requests.exceptions.RequestException` is not caught by the PushPlus
handler: it propagates to the caller after a single attempt, with no retry
and no sleep. -/
theorem pushplus_exception_propagates_cex :
    netOther 0 = ReqOutcome.otherError ∧
    (push_pushplus netOther rand0).2 = FnExit.raised ∧
    httpCount (push_pushplus netOther rand0).1 = 1 ∧
    sleeps (push_pushplus netOther rand0).1 = [] := by
  decide

/-- C9 (amended): every `requests.exceptions.RequestException` raised during
a PushPlus HTTP attempt is treated as retryable — caught locally and
followed by a sleep and a retry when attempts remain — and as long as no
exception of another type occurs, nothing propagates to the caller. -/
theorem pushplus_request_exception_retryable (net : Nat → ReqOutcome)
    (rand : Nat → Nat) :
    ((∀ i, i < 5 → net i ≠ ReqOutcome.otherError) →
      (push_pushplus net rand).2 = FnExit.retNone) ∧
    (∀ i, i < 4 → (∀ j, j ≤ i → net j = ReqOutcome.requestError) →
      Ev.sleep (randint 180 360 (rand i)) ∈ (push_pushplus net rand).1 ∧
      Ev.http (i + 1) ∈ (push_pushplus net rand).1) := by
  constructor
  · intro h
    exact ppGo_no_other net rand 5 0 (fun j _ h2 => h j (by omega))
  · intro i hi hall
    have t0 : (push_pushplus net rand).1 = (pushplusGo net rand 5 0).1 := rfl
    interval_cases i
    · have e0 := hall 0 (by omega)
      have t : (push_pushplus net rand).1 =
          Ev.http 0 :: Ev.sleep (randint 180 360 (rand 0)) ::
            (pushplusGo net rand 4 1).1 := by
        rw [t0, ppGo_fail1 net rand 4 0 e0 (by omega)]
      obtain ⟨rest, hr⟩ := ppGo_head net rand 4 1 (by omega)
      rw [t, hr]
      constructor <;> simp
    · have e0 := hall 0 (by omega); have e1 := hall 1 (by omega)
      have t : (push_pushplus net rand).1 =
          Ev.http 0 :: Ev.sleep (randint 180 360 (rand 0)) ::
          Ev.http 1 :: Ev.sleep (randint 180 360 (rand 1)) ::
            (pushplusGo net rand 3 2).1 := by
        rw [t0, ppGo_fail1 net rand 4 0 e0 (by omega),
          ppGo_fail1 net rand 3 1 e1 (by omega)]
      obtain ⟨rest, hr⟩ := ppGo_head net rand 3 2 (by omega)
      rw [t, hr]
      constructor <;> simp
    · have e0 := hall 0 (by omega); have e1 := hall 1 (by omega)
      have e2 := hall 2 (by omega)
      have t : (push_pushplus net rand).1 =
          Ev.http 0 :: Ev.sleep (randint 180 360 (rand 0)) ::
          Ev.http 1 :: Ev.sleep (randint 180 360 (rand 1)) ::
          Ev.http 2 :: Ev.sleep (randint 180 360 (rand 2)) ::
            (pushplusGo net rand 2 3).1 := by
        rw [t0, ppGo_fail1 net rand 4 0 e0 (by omega),
          ppGo_fail1 net rand 3 1 e1 (by omega),
          ppGo_fail1 net rand 2 2 e2 (by omega)]
      obtain ⟨rest, hr⟩ := ppGo_head net rand 2 3 (by omega)
      rw [t, hr]
      constructor <;> simp
    · have e0 := hall 0 (by omega); have e1 := hall 1 (by omega)
      have e2 := hall 2 (by omega); have e3 := hall 3 (by omega)
      have t : (push_pushplus net rand).1 =
          Ev.http 0 :: Ev.sleep (randint 180 360 (rand 0)) ::
          Ev.http 1 :: Ev.sleep (randint 180 360 (rand 1)) ::
          Ev.http 2 :: Ev.sleep (randint 180 360 (rand 2)) ::
          Ev.http 3 :: Ev.sleep (randint 180 360 (rand 3)) ::
            (pushplusGo net rand 1 4).1 := by
        rw [t0, ppGo_fail1 net rand 4 0 e0 (by omega),
          ppGo_fail1 net rand 3 1 e1 (by omega),
          ppGo_fail1 net rand 2 2 e2 (by omega),
          ppGo_fail1 net rand 1 3 e3 (by omega)]
      obtain ⟨rest, hr⟩ := ppGo_head net rand 1 4 (by omega)
      rw [t, hr]
      constructor <;> simp

/-- Witness for C9 (amended): with only `RequestException` failures the
sender returns normally. -/
theorem pushplus_request_exception_retryable_witness :
    (push_pushplus netFail rand0).2 = FnExit.retNone :=
  (pushplus_request_exception_retryable netFail rand0).1
    (fun _ _ h => ReqOutcome.noConfusion h)

/-- A DingTalk network that answers HTTP 200 with `errcode = 1` on attempt 0
and HTTP 200 with `errcode = 0` afterwards. -/
def dnetRetry : Nat → DingNetOutcome :=
  fun i => if i = 0 then DingNetOutcome.ok (some 1)
           else DingNetOutcome.ok (some 0)

/-- C3: the DingTalk sender returns `true` only if some attempt got an HTTP
2xx response whose JSON body has `errcode = 0`; an HTTP 200 response with
body `errcode = 1` is treated as a failure and triggers a retry (sleep then
a new attempt) rather than being treated as success. -/
theorem push_dingtalk_errcode_spec (cfg : DingConfig)
    (net : Nat → DingNetOutcome) (rand : Nat → Nat) :
    ((push_dingtalk cfg net rand).2 = true →
      ∃ i, i < 3 ∧ net i = DingNetOutcome.ok (some 0) ∧
        cfg.secret.isSome = true) ∧
    (∀ sec : String,
      push_dingtalk ⟨some "https://x", some sec⟩ dnetRetry rand =
        ([Ev.sign 0, Ev.http 0, Ev.sleep (randint 2 5 (rand 0)),
          Ev.sign 1, Ev.http 1], true)) := by
  constructor
  · intro h
    by_cases hw : strFalsy cfg.webhook = true
    · rw [show push_dingtalk cfg net rand = ([], false) by
        simp [push_dingtalk, hw]] at h
      simp at h
    · have hwf : strFalsy cfg.webhook = false := by
        revert hw; cases strFalsy cfg.webhook <;> simp
      rcases ding_run cfg net rand hwf with
        ⟨q0, _⟩ | ⟨_, q1, _⟩ | ⟨_, _, q2, _⟩ | ⟨_, _, _, e⟩
      · exact ⟨0, by omega, q0.2, q0.1⟩
      · exact ⟨1, by omega, q1.2, q1.1⟩
      · exact ⟨2, by omega, q2.2, q2.1⟩
      · rw [e] at h; simp at h
  · intro sec
    have hwf : strFalsy ((⟨some "https://x", some sec⟩ :
        DingConfig)).webhook = false := by
      show strFalsy (some "https://x") = false
      decide
    have nq0 : ¬ dingQualify ⟨some "https://x", some sec⟩ dnetRetry 0 := by
      intro h
      have := h.2
      simp [dnetRetry] at this
    have q1 : dingQualify ⟨some "https://x", some sec⟩ dnetRetry 1 :=
      ⟨by simp, by simp [dnetRetry]⟩
    rcases ding_run ⟨some "https://x", some sec⟩ dnetRetry rand hwf with
      ⟨q0, _⟩ | ⟨_, _, e⟩ | ⟨_, nq1, _, _⟩ | ⟨_, nq1, _, _⟩
    · exact absurd q0 nq0
    · rw [e]; simp [stepEvs, dnetRetry]
    · exact absurd q1 nq1
    · exact absurd q1 nq1

/-- Witness for C3: a run that returns `true` indeed contains an attempt
whose response was 2xx with `errcode = 0`. -/
theorem push_dingtalk_errcode_spec_witness :
    ∃ i, i < 3 ∧ dnetOk i = DingNetOutcome.ok (some 0) ∧
      (w0.dingCfg).secret.isSome = true :=
  (push_dingtalk_errcode_spec w0.dingCfg dnetOk rand0).1 (by decide)

/-- Counting helper: a sleep event changes no sign count. -/
lemma signCount_cons_sleep (d : Nat) (l : List Ev) :
    signCount (Ev.sleep d :: l) = signCount l := by
  simp [signCount]

/-- Counting helper: a sleep event changes no HTTP count. -/
lemma httpCount_cons_sleep (d : Nat) (l : List Ev) :
    httpCount (Ev.sleep d :: l) = httpCount l := by
  simp [httpCount]

/-- Counting helper: a sleep event prepends its duration to the sleeps. -/
lemma sleeps_cons_sleep (d : Nat) (l : List Ev) :
    sleeps (Ev.sleep d :: l) = d :: sleeps l := by
  simp [sleeps]

/-- C8: with a configured webhook the DingTalk sender makes up to 3
attempts, signing afresh on each attempt (one `sign` event per attempt);
every backoff sleep lies in 2–5 seconds and exactly each non-final failed
attempt is followed by one; it returns `true` on the first qualifying
success, stopping there, and `false` after all 3 attempts fail. -/
theorem push_dingtalk_retry_spec (cfg : DingConfig)
    (net : Nat → DingNetOutcome) (rand : Nat → Nat)
    (hw : strFalsy cfg.webhook = false) :
    signCount (push_dingtalk cfg net rand).1 ≤ 3 ∧
    httpCount (push_dingtalk cfg net rand).1 ≤ 3 ∧
    (∀ d ∈ sleeps (push_dingtalk cfg net rand).1, 2 ≤ d ∧ d ≤ 5) ∧
    (sleeps (push_dingtalk cfg net rand).1).length =
      signCount (push_dingtalk cfg net rand).1 - 1 ∧
    (∀ i, i < 3 → dingQualify cfg net i →
      (∀ j, j < i → ¬ dingQualify cfg net j) →
      (push_dingtalk cfg net rand).2 = true ∧
      signCount (push_dingtalk cfg net rand).1 = i + 1) ∧
    ((∀ i, i < 3 → ¬ dingQualify cfg net i) →
      (push_dingtalk cfg net rand).2 = false ∧
      signCount (push_dingtalk cfg net rand).1 = 3) := by
  rcases ding_run cfg net rand hw with
    ⟨q0, e⟩ | ⟨nq0, q1, e⟩ | ⟨nq0, nq1, q2, e⟩ | ⟨nq0, nq1, nq2, e⟩
  · have hsc : signCount (push_dingtalk cfg net rand).1 = 1 := by
      rw [e]; rfl
    have hsl : sleeps (push_dingtalk cfg net rand).1 = [] := by
      rw [e]; rfl
    refine ⟨by omega, by rw [e]; decide, by rw [hsl]; simp,
      by rw [hsl, hsc]; rfl, ?_, ?_⟩
    · intro i hi qi hmin
      interval_cases i
      · exact ⟨by rw [e], hsc⟩
      · exact absurd q0 (hmin 0 (by omega))
      · exact absurd q0 (hmin 0 (by omega))
    · intro hall
      exact absurd q0 (hall 0 (by omega))
  · have hsc : signCount (push_dingtalk cfg net rand).1 = 2 := by
      rw [e, signCount_append, signCount_stepEvs, signCount_cons_sleep]
      rfl
    have hsl : sleeps (push_dingtalk cfg net rand).1 =
        [randint 2 5 (rand 0)] := by
      rw [e, sleeps_append, sleeps_stepEvs, sleeps_cons_sleep]
      rfl
    have hht : httpCount (push_dingtalk cfg net rand).1 ≤ 3 := by
      rw [e, httpCount_append, httpCount_cons_sleep]
      have h0 := httpCount_stepEvs cfg net 0
      have h1 : httpCount [Ev.sign 1, Ev.http 1] = 1 := rfl
      omega
    refine ⟨by omega, hht, ?_, by rw [hsl, hsc]; rfl, ?_, ?_⟩
    · rw [hsl]
      intro d hd
      simp only [List.mem_cons, List.not_mem_nil, or_false] at hd
      rw [hd]
      exact randint_bounds 2 5 _ (by omega)
    · intro i hi qi hmin
      interval_cases i
      · exact absurd qi nq0
      · exact ⟨by rw [e], hsc⟩
      · exact absurd q1 (hmin 1 (by omega))
    · intro hall
      exact absurd q1 (hall 1 (by omega))
  · have hsc : signCount (push_dingtalk cfg net rand).1 = 3 := by
      rw [e, signCount_append, signCount_stepEvs, signCount_cons_sleep,
        signCount_append, signCount_stepEvs, signCount_cons_sleep]
      rfl
    have hsl : sleeps (push_dingtalk cfg net rand).1 =
        [randint 2 5 (rand 0), randint 2 5 (rand 1)] := by
      rw [e, sleeps_append, sleeps_stepEvs, sleeps_cons_sleep,
        sleeps_append, sleeps_stepEvs, sleeps_cons_sleep]
      rfl
    have hht : httpCount (push_dingtalk cfg net rand).1 ≤ 3 := by
      rw [e, httpCount_append, httpCount_cons_sleep, httpCount_append,
        httpCount_cons_sleep]
      have h0 := httpCount_stepEvs cfg net 0
      have h1 := httpCount_stepEvs cfg net 1
      have h2 : httpCount [Ev.sign 2, Ev.http 2] = 1 := rfl
      omega
    refine ⟨by omega, hht, ?_, by rw [hsl, hsc]; rfl, ?_, ?_⟩
    · rw [hsl]
      intro d hd
      simp only [List.mem_cons, List.not_mem_nil, or_false] at hd
      rcases hd with h | h <;> rw [h] <;>
        exact randint_bounds 2 5 _ (by omega)
    · intro i hi qi hmin
      interval_cases i
      · exact absurd qi nq0
      · exact absurd qi nq1
      · exact ⟨by rw [e], hsc⟩
    · intro hall
      exact absurd q2 (hall 2 (by omega))
  · have hsc : signCount (push_dingtalk cfg net rand).1 = 3 := by
      rw [e, signCount_append, signCount_stepEvs, signCount_cons_sleep,
        signCount_append, signCount_stepEvs, signCount_cons_sleep,
        signCount_stepEvs]
    have hsl : sleeps (push_dingtalk cfg net rand).1 =
        [randint 2 5 (rand 0), randint 2 5 (rand 1)] := by
      rw [e, sleeps_append, sleeps_stepEvs, sleeps_cons_sleep,
        sleeps_append, sleeps_stepEvs, sleeps_cons_sleep, sleeps_stepEvs]
      rfl
    have hht : httpCount (push_dingtalk cfg net rand).1 ≤ 3 := by
      rw [e, httpCount_append, httpCount_cons_sleep, httpCount_append,
        httpCount_cons_sleep]
      have h0 := httpCount_stepEvs cfg net 0
      have h1 := httpCount_stepEvs cfg net 1
      have h2 := httpCount_stepEvs cfg net 2
      omega
    refine ⟨by omega, hht, ?_, by rw [hsl, hsc]; rfl, ?_, ?_⟩
    · rw [hsl]
      intro d hd
      simp only [List.mem_cons, List.not_mem_nil, or_false] at hd
      rcases hd with h | h <;> rw [h] <;>
        exact randint_bounds 2 5 _ (by omega)
    · intro i hi qi hmin
      interval_cases i
      · exact absurd qi nq0
      · exact absurd qi nq1
      · exact absurd qi nq2
    · intro hall
      exact ⟨by rw [e], hsc⟩

/-- Witness for C8: with every attempt qualifying, the sender succeeds on
the first attempt with a single signature. -/
theorem push_dingtalk_retry_spec_witness :
    (push_dingtalk w0.dingCfg dnetOk rand0).2 = true ∧
    signCount (push_dingtalk w0.dingCfg dnetOk rand0).1 = 0 + 1 :=
  (push_dingtalk_retry_spec w0.dingCfg dnetOk rand0 (by decide)).2.2.2.2.1
    0 (by decide) (by decide) (fun j hj => absurd hj (Nat.not_lt_zero j))

end Wxread
